import Mathlib

/-!
Verification of the PSU menu analyzer (`menu_analyzer.py`).

This file gives a shallow embedding of the decision logic of the program:
the text classifier (`looks_like_food_item`, `is_navigation_or_ui_text`),
the extraction pipeline (`extract_food_items_from_response`), the local
keyword scorer (`analyze_food_health_local`), the remote batch scorer with
its fallback behaviour (`analyze_food_with_gemini`,
`analyze_batch_with_gemini`) and the post-scoring sort done by
`run_analysis`/`get_fallback_data`.

Modelling conventions:
* Python `str` becomes Lean `String`; all character-level operations
  (`lower`, `strip`, `split`, substring test) are re-implemented on
  `List Char` (`pyLower`, `pyTrim`, `pyWords`, `substrB`).  They agree with
  Python on ASCII data, which is the domain of the program's keyword
  tables; `Char.isAlpha` likewise models Python's `isalpha` on ASCII.
* Python `int` becomes `Int`.
* A scored item `(name, score, reasoning)` becomes `String × Int × String`.
* Network effects are made explicit: the remote scorer is parametrised by
  an oracle `responses : Nat → Option GeminiResp` giving, per batch, either
  the structured object parsed from the service's JSON reply, or `none`
  when any step of the request/parse raised (network error, bad status,
  non-JSON text, non-dict payload).  Inside a successfully parsed object,
  a value on which Python's `int(...)` coercion would raise is `JVal.jbad`.
* Python's `list(set(xs))` iterates a hash set, whose order is unspecified
  (and randomized across processes); it is modelled as first-occurrence
  deduplication (`pyDedup`).  Every set-order choice yields the same
  membership and multiplicity, which is all the dedup theorems use; no
  choice of order is lexicographic.
-/

/-- A scored item, Python's tuple `(food_item, score, reasoning)`. -/
abbrev Scored := String × Int × String

/-- The three dietary-restriction flags of `MenuAnalyzer.__init__`. -/
structure RestrictionConfig where
  exclude_beef : Bool
  exclude_pork : Bool
  vegetarian : Bool
deriving DecidableEq

/-- Python `str.lower` (ASCII). -/
def pyLower (s : String) : String := String.mk (s.data.map Char.toLower)

/-- Python `str.strip` : drop whitespace from both ends. -/
def pyTrim (s : String) : String :=
  String.mk (((s.data.dropWhile Char.isWhitespace).reverse.dropWhile Char.isWhitespace).reverse)

/-- List-level prefix test used by the substring test. -/
def listPrefix : List Char → List Char → Bool
  | [], _ => true
  | _ :: _, [] => false
  | a :: as, b :: bs => a = b && listPrefix as bs

/-- List-level contiguous-substring test. -/
def listInfix (sub : List Char) : List Char → Bool
  | [] => sub.isEmpty
  | c :: t => listPrefix sub (c :: t) || listInfix sub t

/-- Python's `sub in hay` substring test. -/
def substrB (hay sub : String) : Bool := listInfix sub.data hay.data

/-- Helper for `pyWords`: accumulate the current word (reversed) while scanning. -/
def pyWordsAux (cur : List Char) : List Char → List (List Char)
  | [] => if cur.isEmpty then [] else [cur.reverse]
  | c :: cs =>
    if c.isWhitespace then
      if cur.isEmpty then pyWordsAux [] cs else cur.reverse :: pyWordsAux [] cs
    else pyWordsAux (c :: cur) cs

/-- Python's no-argument `str.split`: split on whitespace runs, dropping empties. -/
def pyWords (s : String) : List String := (pyWordsAux [] s.data).map String.mk

/-- The protein keyword tier `excellent` of `analyze_food_health_local`. -/
def excellent_protein : List String :=
  ["grilled chicken", "baked fish", "turkey breast", "salmon", "tuna"]

/-- The protein keyword tier `good` of `analyze_food_health_local`. -/
def good_protein : List String :=
  ["chicken", "fish", "turkey", "beef", "eggs", "tofu", "beans"]

/-- The protein keyword tier `moderate` of `analyze_food_health_local`. -/
def moderate_protein : List String := ["cheese", "nuts", "yogurt", "milk"]

/-- The preparation keyword tier `excellent` of `analyze_food_health_local`. -/
def excellent_prep : List String := ["grilled", "baked", "steamed", "roasted", "fresh"]

/-- The preparation keyword tier `good` of `analyze_food_health_local`. -/
def good_prep : List String := ["sautéed", "stir-fry", "broiled"]

/-- The preparation keyword tier `poor` of `analyze_food_health_local`. -/
def poor_prep : List String := ["fried", "deep-fried", "battered", "creamy"]

/-- The meat keywords of the vegetarian branch of `analyze_food_health_local`. -/
def vegetarian_meats : List String := ["beef", "pork", "chicken", "fish", "turkey"]

/-- Python's `[kw for kw in keywords if kw in item_lower]` reduced to its first
element, which is the only element the code uses (`matches[0]`). -/
def firstMatch (il : String) (kws : List String) : Option String :=
  kws.find? (fun kw => substrB il kw)

/-- The protein-scoring loop of `analyze_food_health_local` (lines 451-462):
first tier with a match wins; the `moderate` tier adds no reasoning text. -/
def proteinDelta (il : String) : Int × List String :=
  match firstMatch il excellent_protein with
  | some kw => (25, ["Excellent protein (" ++ kw ++ ")"])
  | none =>
    match firstMatch il good_protein with
    | some kw => (15, ["Good protein (" ++ kw ++ ")"])
    | none =>
      match firstMatch il moderate_protein with
      | some _ => (8, [])
      | none => (0, [])

/-- The preparation-scoring loop of `analyze_food_health_local` (lines 465-476):
first tier with a match wins; the `good` tier adds no reasoning text. -/
def prepDelta (il : String) : Int × List String :=
  match firstMatch il excellent_prep with
  | some kw => (15, ["Healthy prep (" ++ kw ++ ")"])
  | none =>
    match firstMatch il good_prep with
    | some _ => (8, [])
    | none =>
      match firstMatch il poor_prep with
      | some kw => (-20, ["Unhealthy prep (" ++ kw ++ ")"])
      | none => (0, [])

/-- Line 478 of the source: `score = max(0, min(100, score))`. -/
def pyClamp (s : Int) : Int := max 0 (min 100 s)

/-- The per-item body of the loop of `analyze_food_health_local`
(lines 434-480): dietary-restriction short-circuit, otherwise base 50 plus
protein and preparation deltas; then clamp and join the reasoning parts. -/
def scoreItem (cfg : RestrictionConfig) (item : String) : Scored :=
  let il := pyLower item
  let sr : Int × List String :=
    if cfg.exclude_beef && substrB il "beef" then (0, ["Excluded: contains beef"])
    else if cfg.exclude_pork && substrB il "pork" then (0, ["Excluded: contains pork"])
    else if cfg.vegetarian && vegetarian_meats.any (fun m => substrB il m) then
      (0, ["Excluded: contains meat"])
    else
      let p := proteinDelta il
      let q := prepDelta il
      (50 + p.1 + q.1, p.2 ++ q.2)
  (item, pyClamp sr.1,
    if sr.2.isEmpty then "Standard option" else String.intercalate "; " sr.2)

/-- `MenuAnalyzer.analyze_food_health_local` (lines 418-482): one scored
tuple per input item, in input order. -/
def analyze_food_health_local (cfg : RestrictionConfig) (food_items : List String) :
    List Scored :=
  food_items.map (scoreItem cfg)

/-- The descending-by-score order used by
`analyzed_items.sort(key=lambda x: x[1], reverse=True)`. -/
def scoreGE (a b : Scored) : Prop := b.2.1 ≤ a.2.1

instance : DecidableRel scoreGE := fun a b => inferInstanceAs (Decidable (b.2.1 ≤ a.2.1))

instance : IsTotal Scored scoreGE := ⟨fun a b => le_total b.2.1 a.2.1⟩

instance : IsTrans Scored scoreGE := ⟨fun _ _ _ h1 h2 => le_trans h2 h1⟩

/-- The post-scoring step of `run_analysis` (line 325) and
`get_fallback_data` (line 347): a stable sort by descending score.  Python's
`list.sort` is stable; with `reverse=True` it keeps equal-score items in
their original order, which is exactly `List.insertionSort` on `scoreGE`. -/
def sortScored (l : List Scored) : List Scored := List.insertionSort scoreGE l

/-- A value inside the JSON object parsed from the Gemini reply: either a
value that Python's `int(...)` coerces to an integer, or one on which the
coercion raises. -/
inductive JVal where
  | jint (n : Int)
  | jbad
deriving DecidableEq

/-- One value of the parsed JSON object: the optional `score` and
`reasoning` fields of `info` (absent field = `none`). -/
structure JEntry where
  score : Option JVal
  reasoning : Option String
deriving DecidableEq

/-- The JSON object parsed from a batch reply, as its ordered key-value
pairs (`parsed.items()`). -/
abbrev GeminiResp := List (String × JEntry)

/-- Python's `int(info.get("score", 0))`: an absent field defaults to `0`
(then `int(0) = 0`); a present, coercible value yields its integer. -/
def entryScore (e : JEntry) : Int :=
  match e.score with
  | none => 0
  | some (.jint n) => n
  | some .jbad => 0

/-- True when no entry's `score` value makes `int(...)` raise, i.e. the
list comprehension of line 411 runs to completion. -/
def allCoercible (resp : GeminiResp) : Bool :=
  resp.all (fun fe =>
    match fe.2.score with
    | some .jbad => false
    | _ => true)

/-- `MenuAnalyzer._analyze_batch_with_gemini` (lines 371-416) after the
HTTP/parse stage: given the structured object parsed from the reply, build
one tuple per key of the object (line 411-412); if any `int(...)` coercion
raises, the `except` branch returns the local analysis of the batch
(line 416).  A failure before this point (network, status, non-JSON text)
is a `none` response, handled by the caller model `gemBatches`. -/
def analyze_batch_with_gemini (cfg : RestrictionConfig) (food_batch : List String)
    (resp : GeminiResp) : List Scored :=
  if allCoercible resp then
    resp.map (fun fe => (fe.1, entryScore fe.2, fe.2.reasoning.getD ""))
  else analyze_food_health_local cfg food_batch

/-- The batch split `food_items[i:i + batch_size]` with `batch_size = 10`
(lines 358-361). -/
def chunk10 : List String → List (List String)
  | [] => []
  | x :: xs => ((x :: xs).take 10) :: chunk10 (xs.drop 9)
termination_by l => l.length
decreasing_by simp [List.length_drop]; omega

/-- The batch loop of `analyze_food_with_gemini` (lines 360-364): batch
number `i` receives the oracle's `i`-th response, `none` meaning the
request or parse raised so the batch falls back to the local analysis. -/
def gemBatches (cfg : RestrictionConfig) (responses : Nat → Option GeminiResp) :
    Nat → List (List String) → List Scored
  | _, [] => []
  | i, b :: bs =>
    (match responses i with
     | none => analyze_food_health_local cfg b
     | some r => analyze_batch_with_gemini cfg b r) ++ gemBatches cfg responses (i + 1) bs

/-- `MenuAnalyzer.analyze_food_with_gemini` (lines 353-369): without a
credential, the local analysis; otherwise the batched remote analysis. -/
def analyze_food_with_gemini (cfg : RestrictionConfig) (hasKey : Bool)
    (responses : Nat → Option GeminiResp) (food_items : List String) : List Scored :=
  if hasKey then gemBatches cfg responses 0 (chunk10 food_items)
  else analyze_food_health_local cfg food_items

/-- The scanner of `re.sub(r"` ++ "```" ++ `(json)?", "", text, flags=IGNORECASE)`
(line 407): at each position, three backquotes are removed, together with a
following case-insensitive `json`; other characters are kept. -/
def stripFenceAux (l : List Char) : List Char :=
  match l with
  | [] => []
  | c :: rest =>
    if c = '`' && listPrefix ['`', '`'] rest then
      let after := rest.drop 2
      if (after.take 4).map Char.toLower = ['j', 's', 'o', 'n'] then
        stripFenceAux (after.drop 4)
      else stripFenceAux after
    else c :: stripFenceAux rest
termination_by l.length
decreasing_by all_goals (simp [List.length_drop]; try omega)

/-- The second regex of line 408, `re.sub` on pattern "three backquotes at
end of string": drop a trailing fence. -/
def dropFence3End (l : List Char) : List Char :=
  match l.reverse with
  | '`' :: '`' :: '`' :: rest => rest.reverse
  | _ => l

/-- Lines 407-408 of the source: remove code-fence markers, strip, remove a
trailing fence, strip again. -/
def stripFences (s : String) : String :=
  let t1 := pyTrim (String.mk (stripFenceAux s.data))
  pyTrim (String.mk (dropFence3End t1.data))

/-- The UI and menu-chrome denylist of `looks_like_food_item` (lines 209-211). -/
def ui_terms : List String :=
  ["click", "select", "menu", "page", "home", "login", "search",
   "view", "print", "back", "next", "submit", "cancel", "choose",
   "options", "settings", "help", "contact", "about"]

/-- The strong food-signal words of `looks_like_food_item` (lines 221-226). -/
def strong_food_words : List String :=
  ["chicken", "beef", "pork", "fish", "turkey", "salmon", "tuna",
   "burger", "pizza", "pasta", "salad", "sandwich", "soup", "steak",
   "rice", "beans", "vegetables", "fruit", "cheese", "bread",
   "grilled", "baked", "fried", "roasted", "steamed", "sautéed"]

/-- The moderate food-signal words of `looks_like_food_item` (lines 232-235). -/
def moderate_food_words : List String :=
  ["bowl", "plate", "wrap", "roll", "cake", "cookie", "pie",
   "sauce", "dressing", "seasoned", "spiced", "fresh", "hot"]

/-- The URL/email marker substrings of line 244. -/
def url_markers : List String := ["@", "http", ".com", "()", "[]"]

/-- The word allowlist of the permissive tail of the classifier (lines 247-250). -/
def food_like_words : List String :=
  ["bowl", "cup", "plate", "special", "daily", "fresh", "hot", "cold",
   "classic", "traditional", "homemade", "style", "with", "and"]

/-- The phrase denylist of `is_navigation_or_ui_text` (lines 260-264). -/
def nav_phrases : List String :=
  ["view menu", "select date", "choose location", "dining options",
   "meal plans", "nutrition info", "allergen info", "hours",
   "locations", "contact us", "feedback", "terms", "privacy"]

/-- `MenuAnalyzer.looks_like_food_item` (lines 196-254).  The float test
`alpha_ratio < 0.5` is the exact integer comparison
`2 * alphaCount < length` (for lengths up to 100 the rounding of the
division cannot cross 0.5). -/
def looks_like_food_item (text : String) : Bool :=
  if text.data.isEmpty || (pyTrim text).data.length < 3 then false
  else
    let t := pyTrim text
    let tl := pyLower t
    if 100 < t.data.length then false
    else if ui_terms.any (fun term => substrB tl term) then false
    else if 2 * (t.data.filter Char.isAlpha).length < t.data.length then false
    else if strong_food_words.any (fun w => substrB tl w) then true
    else if 0 < (moderate_food_words.filter (fun w => substrB tl w)).length
            && 2 ≤ (pyWords t).length && (pyWords t).length ≤ 8 then true
    else if 2 ≤ (pyWords t).length && (pyWords t).length ≤ 6
            && !(url_markers.any (fun sub => substrB t sub)) then
      (pyWords tl).any (fun w => food_like_words.contains w)
    else false

/-- `MenuAnalyzer.is_navigation_or_ui_text` (lines 256-266). -/
def is_navigation_or_ui_text (text : String) : Bool :=
  nav_phrases.any (fun phrase => substrB (pyTrim (pyLower text)) phrase)

/-- The menu-response document, abstracted to the `get_text(strip=True)`
texts of the four node queries of `extract_food_items_from_response`:
containers whose class matches `menu|item|food`, table cells, list items,
and the generic text elements (`span`/`div`/`p`/`strong`/`b`). -/
structure Document where
  class_matched : List String
  table_cells : List String
  list_items : List String
  text_elements : List String

/-- Methods 1-4 of `extract_food_items_from_response` (lines 150-178): the
accumulated `food_items` list before cleanup.  Method 4 additionally
requires at most 6 words. -/
def candidate_items (d : Document) : List String :=
  d.class_matched.filter looks_like_food_item
    ++ d.table_cells.filter looks_like_food_item
    ++ d.list_items.filter looks_like_food_item
    ++ d.text_elements.filter (fun t => looks_like_food_item t && (pyWords t).length ≤ 6)

/-- Helper for `pyDedup`, keeping the already-seen elements. -/
def pyDedupAux (seen : List String) : List String → List String
  | [] => []
  | x :: xs => if seen.contains x then pyDedupAux seen xs else x :: pyDedupAux (x :: seen) xs

/-- Python's `list(set(food_items))` (line 182).  A hash set deduplicates
by exact equality; its iteration order is unspecified, and is modelled
here as first-occurrence order (any other order is a permutation of this
one and yields the same membership). -/
def pyDedup (l : List String) : List String := pyDedupAux [] l

/-- `MenuAnalyzer.extract_food_items_from_response` (lines 146-194): the
four extraction methods, the `len(item.strip()) > 2` cleanup, the set
deduplication, and the navigation filter, in source order. -/
def extract_food_items_from_response (d : Document) : List String :=
  (pyDedup ((candidate_items d).filter (fun i => 2 < (pyTrim i).data.length))).filter
    (fun i => !(is_navigation_or_ui_text i))

/-- Lexicographic order on character lists (the order Python's `sorted`
puts strings in); used only to state ordering properties of the
extraction output. -/
def lexLeB : List Char → List Char → Bool
  | [], _ => true
  | _ :: _, [] => false
  | a :: as, b :: bs => if a < b then true else if b < a then false else lexLeB as bs

theorem scoreItem_fst (cfg : RestrictionConfig) (item : String) :
    (scoreItem cfg item).1 = item := rfl

/-- The local scorer is a per-item map, so its name column is the input. -/
theorem local_map_fst (cfg : RestrictionConfig) (items : List String) :
    (analyze_food_health_local cfg items).map Prod.fst = items := by
  have h : Prod.fst ∘ scoreItem cfg = id := funext fun i => rfl
  simp [analyze_food_health_local, List.map_map, h]

/-- The clamp of line 478 lands in `[0, 100]`. -/
theorem pyClamp_bounds (s : Int) : 0 ≤ pyClamp s ∧ pyClamp s ≤ 100 := by
  unfold pyClamp
  constructor
  · exact le_max_left 0 _
  · exact max_le (by decide) (min_le_left 100 s)

/-- C9: for every input list of item names and every restriction config,
the local scorer returns a list of exactly the same length as its input,
whose `i`-th tuple keeps the `i`-th input item as its name: no item is
dropped, added, or renamed, and input order is preserved. -/
theorem local_scorer_preserves_items (cfg : RestrictionConfig) (items : List String) :
    (analyze_food_health_local cfg items).map Prod.fst = items :=
  local_map_fst cfg items

/-- C1 (amended): every scored item produced by the local scorer
`analyze_food_health_local` has a score in `[0, 100]` (the clamp of
line 478); the remote parse path returns response integers unclamped. -/
theorem local_scores_bounded (cfg : RestrictionConfig) (items : List String)
    (x : Scored) (hx : x ∈ analyze_food_health_local cfg items) :
    0 ≤ x.2.1 ∧ x.2.1 ≤ 100 := by
  rcases List.mem_map.mp hx with ⟨i, _, rfl⟩
  show 0 ≤ (scoreItem cfg i).2.1 ∧ (scoreItem cfg i).2.1 ≤ 100
  unfold scoreItem
  exact pyClamp_bounds _

/-- Witness for `local_scores_bounded` at a concrete input. -/
theorem local_scores_bounded_witness :
    ("Oatmeal", (50 : Int), "Standard option") ∈
        analyze_food_health_local ⟨false, false, false⟩ ["Oatmeal"]
    ∧ (0 : Int) ≤ 50 ∧ (50 : Int) ≤ 100 :=
  ⟨by decide,
   local_scores_bounded ⟨false, false, false⟩ ["Oatmeal"]
     ("Oatmeal", 50, "Standard option") (by decide)⟩

/-- C1 counterexample: the remote batch parse (line 411) applies no clamp:
a response score of 150 is returned as 150, outside `[0, 100]`. -/
theorem remote_score_unclamped :
    analyze_batch_with_gemini ⟨false, false, false⟩ ["Mystery Dish"]
        [("Mystery Dish", ⟨some (JVal.jint 150), some "Huge protein"⟩)]
      = [("Mystery Dish", 150, "Huge protein")]
    ∧ ¬((150 : Int) ≤ 100) := by decide

/-- C3: when `excludeBeef` is set and the lowercased item text contains
"beef", the local scorer short-circuits: the item's tuple is exactly
`(item, 0, "Excluded: contains beef")`, with no protein or preparation
bonus combined. -/
theorem exclude_beef_short_circuits (cfg : RestrictionConfig) (item : String)
    (items : List String) (hb : cfg.exclude_beef = true)
    (hbeef : substrB (pyLower item) "beef" = true) (hmem : item ∈ items) :
    scoreItem cfg item = (item, 0, "Excluded: contains beef")
    ∧ (item, (0 : Int), "Excluded: contains beef") ∈ analyze_food_health_local cfg items := by
  have h1 : scoreItem cfg item = (item, 0, "Excluded: contains beef") := by
    simp only [scoreItem, hb, hbeef, pyClamp]
    rfl
  refine ⟨h1, ?_⟩
  have h2 := List.mem_map_of_mem (scoreItem cfg) hmem
  rw [h1] at h2
  exact h2

/-- Witness for `exclude_beef_short_circuits` at "Grilled Beef Steak":
it scores 0, not 50 + 25 + 15. -/
theorem exclude_beef_short_circuits_witness :
    (⟨true, false, false⟩ : RestrictionConfig).exclude_beef = true
    ∧ substrB (pyLower "Grilled Beef Steak") "beef" = true
    ∧ ("Grilled Beef Steak" ∈ ["Grilled Beef Steak"])
    ∧ scoreItem ⟨true, false, false⟩ "Grilled Beef Steak"
        = ("Grilled Beef Steak", 0, "Excluded: contains beef") :=
  ⟨rfl, by decide, by decide,
   (exclude_beef_short_circuits ⟨true, false, false⟩ "Grilled Beef Steak"
     ["Grilled Beef Steak"] rfl (by decide) (by decide)).1⟩

/-- C6: on `["Baked Salmon", "Beef Stir-Fry", "Fried Chicken Tenders"]`
with only `excludeBeef` set, the local scorer followed by the
descending-score sort ranks Baked Salmon first with 50 + 25 + 15 = 90,
gives Beef Stir-Fry 0 (excluded), and gives Fried Chicken Tenders
50 + 15 − 20 = 45, strictly below Salmon because of the poor-prep penalty. -/
theorem end_to_end_scenario :
    sortScored (analyze_food_health_local ⟨true, false, false⟩
        ["Baked Salmon", "Beef Stir-Fry", "Fried Chicken Tenders"])
      = [("Baked Salmon", 90, "Excellent protein (salmon); Healthy prep (baked)"),
         ("Fried Chicken Tenders", 45, "Good protein (chicken); Unhealthy prep (fried)"),
         ("Beef Stir-Fry", 0, "Excluded: contains beef")]
    ∧ (45 : Int) < 90 ∧ (0 : Int) < 45 := by decide

/-- C2 counterexample: with `excludeBeef` set, an item containing "beef"
is not removed after scoring — `run_analysis` only sorts, so the item is
still present (with score 0) in the post-scoring result. -/
theorem beef_item_not_filtered :
    (⟨true, false, false⟩ : RestrictionConfig).exclude_beef = true
    ∧ substrB (pyLower "Beef Stew") "beef" = true
    ∧ sortScored (analyze_food_health_local ⟨true, false, false⟩ ["Beef Stew"])
        = [("Beef Stew", 0, "Excluded: contains beef")] := by decide

/-- C2 (amended): no restriction filter runs after scoring.  The
post-scoring step of `run_analysis` is only a stable descending sort by
score: the sorted output is a permutation of the scored items (nothing is
removed for any restriction config), it is sorted by descending score, and
on the local path its name column is a permutation of the input items. -/
theorem post_scoring_only_sorts (cfg : RestrictionConfig) (hasKey : Bool)
    (responses : Nat → Option GeminiResp) (items : List String) :
    (sortScored (analyze_food_with_gemini cfg hasKey responses items)).Perm
        (analyze_food_with_gemini cfg hasKey responses items)
    ∧ List.Sorted scoreGE (sortScored (analyze_food_with_gemini cfg hasKey responses items))
    ∧ ((sortScored (analyze_food_with_gemini cfg false responses items)).map Prod.fst).Perm
        items := by
  refine ⟨List.perm_insertionSort scoreGE _, List.sorted_insertionSort scoreGE _, ?_⟩
  have h0 : analyze_food_with_gemini cfg false responses items
      = analyze_food_health_local cfg items := by
    simp [analyze_food_with_gemini]
  have hp := (List.perm_insertionSort scoreGE
    (analyze_food_health_local cfg items)).map Prod.fst
  rw [local_map_fst] at hp
  rw [h0]
  exact hp

/-- Concatenating the batch split recovers the item list. -/
theorem chunk10_flatten : ∀ (l : List String), (chunk10 l).flatten = l
  | [] => by simp [chunk10]
  | x :: xs => by
    simp only [chunk10, List.flatten_cons]
    rw [chunk10_flatten (xs.drop 9)]
    rw [show xs.drop 9 = (x :: xs).drop 10 from rfl]
    exact List.take_append_drop 10 (x :: xs)
termination_by l => l.length
decreasing_by simp [List.length_drop]; omega

/-- When every batch request fails, the batch loop is the local analysis
of each batch, concatenated. -/
theorem gemBatches_all_none (cfg : RestrictionConfig) (responses : Nat → Option GeminiResp)
    (h : ∀ i, responses i = none) :
    ∀ (k : Nat) (bs : List (List String)),
      gemBatches cfg responses k bs = (bs.map (analyze_food_health_local cfg)).flatten
  | _, [] => by simp [gemBatches]
  | k, b :: bs => by
    simp only [gemBatches, h k, List.map_cons, List.flatten_cons]
    rw [gemBatches_all_none cfg responses h (k + 1) bs]

/-- The local analysis commutes with concatenation of batches. -/
theorem local_flatten (cfg : RestrictionConfig) (bs : List (List String)) :
    (bs.map (analyze_food_health_local cfg)).flatten
      = analyze_food_health_local cfg bs.flatten := by
  simp only [analyze_food_health_local]
  exact (List.map_flatten _ _).symm

/-- A failing batch contributes exactly the local analysis of that batch,
as a contiguous segment of the loop's output. -/
theorem gemBatches_seg (cfg : RestrictionConfig) (responses : Nat → Option GeminiResp) :
    ∀ (k : Nat) (bs : List (List String)) (i : Nat) (hi : i < bs.length),
      responses (k + i) = none →
      ∃ pre post, gemBatches cfg responses k bs
        = pre ++ analyze_food_health_local cfg (bs.get ⟨i, hi⟩) ++ post
  | k, b :: bs, 0, _, h => by
    refine ⟨[], gemBatches cfg responses (k + 1) bs, ?_⟩
    have hk : responses k = none := by simpa using h
    simp [gemBatches, hk]
  | k, b :: bs, i + 1, hi, h => by
    have hi' : i < bs.length := by simpa using Nat.lt_of_succ_lt_succ hi
    have h' : responses (k + 1 + i) = none := by
      rw [show k + 1 + i = k + (i + 1) from by omega]; exact h
    obtain ⟨pre, post, e⟩ := gemBatches_seg cfg responses (k + 1) bs i hi' h'
    refine ⟨(match responses k with
             | none => analyze_food_health_local cfg b
             | some r => analyze_batch_with_gemini cfg b r) ++ pre, post, ?_⟩
    simp only [gemBatches, e, List.append_assoc, List.get_cons_succ]

/-- C4: every failure of the remote path falls back to the local scorer for
the affected items, and no failure escapes: without a credential the result
is the local result; if every batch request fails the result equals the
local result on the whole list; if the request for batch `i` fails, the
output contains exactly the local analysis of that batch as a contiguous
segment; and a parsed response on which the integer coercion raises makes
that batch fall back to its local analysis. -/
theorem gemini_fallback_to_local (cfg : RestrictionConfig)
    (responses : Nat → Option GeminiResp) (items : List String) :
    (analyze_food_with_gemini cfg false responses items
      = analyze_food_health_local cfg items)
    ∧ ((∀ i, responses i = none) →
        analyze_food_with_gemini cfg true responses items
          = analyze_food_health_local cfg items)
    ∧ (∀ (i : Nat) (hi : i < (chunk10 items).length), responses i = none →
        ∃ pre post, analyze_food_with_gemini cfg true responses items
          = pre ++ analyze_food_health_local cfg ((chunk10 items).get ⟨i, hi⟩) ++ post)
    ∧ (∀ (batch : List String) (resp : GeminiResp), allCoercible resp = false →
        analyze_batch_with_gemini cfg batch resp = analyze_food_health_local cfg batch) := by
  refine ⟨by simp [analyze_food_with_gemini], ?_, ?_, ?_⟩
  · intro h
    simp only [analyze_food_with_gemini, if_true]
    rw [gemBatches_all_none cfg responses h 0 (chunk10 items), local_flatten, chunk10_flatten]
  · intro i hi h
    have h0 : responses (0 + i) = none := by simpa using h
    obtain ⟨pre, post, e⟩ := gemBatches_seg cfg responses 0 (chunk10 items) i hi h0
    exact ⟨pre, post, by simpa [analyze_food_with_gemini] using e⟩
  · intro batch resp h
    simp [analyze_batch_with_gemini, h]

/-- Witness for `gemini_fallback_to_local`: with every request failing, the
remote scorer returns the local scorer's output. -/
theorem gemini_fallback_to_local_witness :
    analyze_food_with_gemini ⟨false, false, false⟩ true (fun _ => none) ["Baked Salmon"]
      = analyze_food_health_local ⟨false, false, false⟩ ["Baked Salmon"] :=
  (gemini_fallback_to_local ⟨false, false, false⟩ (fun _ => none) ["Baked Salmon"]).2.1
    (fun _ => rfl)

/-- A scan that meets no backquote copies its input. -/
theorem stripFenceAux_no_fence : ∀ (l : List Char), '`' ∉ l → stripFenceAux l = l := by
  intro l
  induction l with
  | nil => intro _; simp [stripFenceAux]
  | cons c rest ih =>
    intro h
    have hc : ¬(c = '`') := fun e => h (by simp [e])
    have h2 : '`' ∉ rest := fun m => h (List.mem_cons_of_mem c m)
    simp [stripFenceAux, hc, ih h2]

/-- A trailing fence after fence-free text is removed by the scanner. -/
theorem stripFenceAux_trailing : ∀ (l : List Char), '`' ∉ l →
    stripFenceAux (l ++ ['`', '`', '`']) = l := by
  intro l
  induction l with
  | nil => intro _; simp [stripFenceAux, listPrefix]
  | cons c rest ih =>
    intro h
    have hc : ¬(c = '`') := fun e => h (by simp [e])
    have h2 : '`' ∉ rest := fun m => h (List.mem_cons_of_mem c m)
    simp only [List.cons_append]
    simp [stripFenceAux, hc, ih h2]

/-- A leading three-backquote-plus-json marker is removed by the scanner. -/
theorem stripFenceAux_json_prefix (rest : List Char) :
    stripFenceAux ('`' :: '`' :: '`' :: 'j' :: 's' :: 'o' :: 'n' :: rest)
      = stripFenceAux rest := by
  have hj : (('j' :: 's' :: 'o' :: 'n' :: rest).take 4).map Char.toLower
      = ['j', 's', 'o', 'n'] := rfl
  simp [stripFenceAux, listPrefix, hj]

/-- Wrapping a fence-free payload in a json code fence does not change the
result of the fence-stripping of lines 407-408. -/
theorem strip_fences_inv (p : String) (h : '`' ∉ p.data) :
    stripFences ("```json" ++ p ++ "```") = stripFences p := by
  have hd : ("```json" ++ p ++ "```").data
      = '`' :: '`' :: '`' :: 'j' :: 's' :: 'o' :: 'n' :: (p.data ++ ['`', '`', '`']) := by
    cases p with
    | mk l => rfl
  have e1 : stripFenceAux (("```json" ++ p ++ "```").data) = stripFenceAux p.data := by
    rw [hd, stripFenceAux_json_prefix, stripFenceAux_trailing p.data h,
        stripFenceAux_no_fence p.data h]
  simp only [stripFences, e1]

/-- Membership in the dedup scan: present in the input and not yet seen. -/
theorem pyDedupAux_mem (x : String) : ∀ (seen l : List String),
    x ∈ pyDedupAux seen l ↔ x ∈ l ∧ x ∉ seen := by
  intro seen l
  induction l generalizing seen with
  | nil => simp [pyDedupAux]
  | cons y ys ih =>
    by_cases hy : seen.contains y
    · have hy' : y ∈ seen := by simpa using hy
      simp only [pyDedupAux, if_pos hy, ih, List.mem_cons]
      constructor
      · exact fun ⟨m, ns⟩ => ⟨Or.inr m, ns⟩
      · rintro ⟨m | m, ns⟩
        · exact absurd (m ▸ hy') ns
        · exact ⟨m, ns⟩
    · have hy' : y ∉ seen := by simpa using hy
      simp only [pyDedupAux, if_neg hy, List.mem_cons, ih, List.mem_cons]
      constructor
      · rintro (rfl | ⟨m, ns⟩)
        · exact ⟨Or.inl rfl, hy'⟩
        · exact ⟨Or.inr m, fun c => ns (Or.inr c)⟩
      · rintro ⟨rfl | m, ns⟩
        · exact Or.inl rfl
        · by_cases hxy : x = y
          · exact Or.inl hxy
          · exact Or.inr ⟨m, fun c => (by cases c with
              | inl e => exact hxy e
              | inr e => exact ns e)⟩

/-- The dedup scan never emits a duplicate. -/
theorem pyDedupAux_nodup : ∀ (seen l : List String), (pyDedupAux seen l).Nodup
  | _, [] => by simp [pyDedupAux]
  | seen, y :: ys => by
    by_cases hy : seen.contains y
    · simp only [pyDedupAux, if_pos hy]
      exact pyDedupAux_nodup seen ys
    · simp only [pyDedupAux, if_neg hy]
      refine List.nodup_cons.mpr ⟨?_, pyDedupAux_nodup (y :: seen) ys⟩
      rw [pyDedupAux_mem]
      simp

/-- C10: when a batch response parses successfully (no integer coercion
raises), the returned scored items are exactly the key-value pairs of the
parsed object: the name column equals the response keys, an input batch
item absent from the keys is dropped with no local fallback for it, and a
key that was not in the batch still yields a scored item. -/
theorem batch_success_exact_keys (cfg : RestrictionConfig) (batch : List String)
    (resp : GeminiResp) (h : allCoercible resp = true) :
    (analyze_batch_with_gemini cfg batch resp).map Prod.fst = resp.map Prod.fst
    ∧ (∀ x ∈ batch, x ∉ resp.map Prod.fst →
        x ∉ (analyze_batch_with_gemini cfg batch resp).map Prod.fst)
    ∧ (∀ k ∈ resp.map Prod.fst,
        k ∈ (analyze_batch_with_gemini cfg batch resp).map Prod.fst) := by
  have h1 : (analyze_batch_with_gemini cfg batch resp).map Prod.fst = resp.map Prod.fst := by
    simp [analyze_batch_with_gemini, h, List.map_map, Function.comp]
  exact ⟨h1, fun x _ hx => by rw [h1]; exact hx, fun k hk => by rw [h1]; exact hk⟩

/-- Witness for `batch_success_exact_keys`: "Ghost Item" was in the batch
but not in the response and is dropped; "Surprise Dish" was not in the
batch but is returned. -/
theorem batch_success_exact_keys_witness :
    allCoercible [("Baked Salmon", JEntry.mk (some (JVal.jint 80)) (some "ok")),
                  ("Surprise Dish", JEntry.mk (some (JVal.jint 70)) (some "extra"))] = true
    ∧ (analyze_batch_with_gemini ⟨false, false, false⟩ ["Baked Salmon", "Ghost Item"]
          [("Baked Salmon", JEntry.mk (some (JVal.jint 80)) (some "ok")),
           ("Surprise Dish", JEntry.mk (some (JVal.jint 70)) (some "extra"))]).map Prod.fst
      = ([("Baked Salmon", JEntry.mk (some (JVal.jint 80)) (some "ok")),
          ("Surprise Dish", JEntry.mk (some (JVal.jint 70)) (some "extra"))] :
            GeminiResp).map Prod.fst :=
  ⟨by decide,
   (batch_success_exact_keys ⟨false, false, false⟩ ["Baked Salmon", "Ghost Item"]
     [("Baked Salmon", JEntry.mk (some (JVal.jint 80)) (some "ok")),
      ("Surprise Dish", JEntry.mk (some (JVal.jint 70)) (some "extra"))] (by decide)).1⟩

/-- C5 counterexample: a response entry with no `score` field is given
score 0 by line 411 (`info.get("score", 0)`), not the claimed default 50. -/
theorem missing_score_defaults_to_zero :
    analyze_batch_with_gemini ⟨false, false, false⟩ ["Oatmeal"]
        [("Oatmeal", JEntry.mk none (some "Plain"))]
      = [("Oatmeal", 0, "Plain")]
    ∧ (0 : Int) ≠ 50 := by decide

/-- C5 (amended): response parsing strips code-fence wrapping (wrapping a
fence-free payload in a json fence does not change the stripped text); a
missing `score` field defaults to 0; a score value on which the integer
coercion raises makes the whole batch fall back to the local scorer; a
missing `reasoning` field defaults to the empty string. -/
theorem gemini_parse_defaults :
    (∀ (p : String), '`' ∉ p.data →
        stripFences ("```json" ++ p ++ "```") = stripFences p)
    ∧ (∀ (cfg : RestrictionConfig) (batch : List String) (resp : GeminiResp)
          (name : String) (reas : Option String),
        (name, JEntry.mk none reas) ∈ resp → allCoercible resp = true →
        (name, (0 : Int), reas.getD "") ∈ analyze_batch_with_gemini cfg batch resp)
    ∧ (∀ (cfg : RestrictionConfig) (batch : List String) (resp : GeminiResp),
        allCoercible resp = false →
        analyze_batch_with_gemini cfg batch resp = analyze_food_health_local cfg batch) := by
  refine ⟨strip_fences_inv, ?_, ?_⟩
  · intro cfg batch resp name reas hmem hall
    have h2 := List.mem_map_of_mem
      (fun fe : String × JEntry => (fe.1, entryScore fe.2, fe.2.reasoning.getD "")) hmem
    simpa [analyze_batch_with_gemini, hall, entryScore] using h2
  · intro cfg batch resp h
    simp [analyze_batch_with_gemini, h]

/-- Witness for `gemini_parse_defaults` at concrete inputs. -/
theorem gemini_parse_defaults_witness :
    ('`' ∉ ("score missing" : String).data)
    ∧ stripFences ("```json" ++ "score missing" ++ "```") = stripFences "score missing"
    ∧ ("Oatmeal", JEntry.mk none (some "Plain")) ∈
        ([("Oatmeal", JEntry.mk none (some "Plain"))] : GeminiResp)
    ∧ allCoercible [("Oatmeal", JEntry.mk none (some "Plain"))] = true
    ∧ ("Oatmeal", (0 : Int), "Plain") ∈
        analyze_batch_with_gemini ⟨false, false, false⟩ ["Oatmeal"]
          [("Oatmeal", JEntry.mk none (some "Plain"))] :=
  ⟨by decide, gemini_parse_defaults.1 "score missing" (by decide), by decide, by decide,
   gemini_parse_defaults.2.1 ⟨false, false, false⟩ ["Oatmeal"]
     [("Oatmeal", JEntry.mk none (some "Plain"))] "Oatmeal" (some "Plain")
     (by decide) (by decide)⟩

/-- C7 counterexample: extraction applies no sort.  For two qualifying
table-cell texts in non-alphabetical discovery order the output keeps that
order, so it is not ordered lexicographically by name (and the function
offers no ordering option at all). -/
theorem extract_not_lexicographic :
    extract_food_items_from_response ⟨[], ["Zucchini Pasta", "Apple Pie"], [], []⟩
      = ["Zucchini Pasta", "Apple Pie"]
    ∧ ¬ List.Sorted (fun a b : String => lexLeB a.data b.data = true)
        (extract_food_items_from_response ⟨[], ["Zucchini Pasta", "Apple Pie"], [], []⟩) := by
  decide

/-- C7 (amended): the extraction result contains exactly those node texts
that pass the food classifier (with the method-4 word bound), the
`len > 2` cleanup and the navigation filter, each at most once; the order
is the unspecified iteration order of Python's `set` (first occurrence in
this model) — no lexicographic sort is applied and there is no
discovery-order option. -/
theorem extract_membership (d : Document) (s : String) :
    s ∈ extract_food_items_from_response d
      ↔ s ∈ candidate_items d ∧ 2 < (pyTrim s).data.length
        ∧ is_navigation_or_ui_text s = false := by
  simp [extract_food_items_from_response, List.mem_filter, pyDedup, pyDedupAux_mem]
  tauto

/-- C8 counterexample: deduplication is `list(set(...))`, by exact string
equality, not by case-folded name: two texts equal up to case both appear
in the extraction result. -/
theorem case_variants_not_merged :
    extract_food_items_from_response ⟨[], ["Grilled Chicken", "GRILLED CHICKEN"], [], []⟩
      = ["Grilled Chicken", "GRILLED CHICKEN"]
    ∧ pyLower (pyTrim "Grilled Chicken") = pyLower (pyTrim "GRILLED CHICKEN")
    ∧ (extract_food_items_from_response
        ⟨[], ["Grilled Chicken", "GRILLED CHICKEN"], [], []⟩).length ≠ 1 := by
  decide

/-- C8 (amended): extraction deduplicates by exact node text (texts are
already stripped by `get_text(strip=True)`): every extracted name occurs
exactly once in the result, however many nodes carried it; equality up to
case-folding is not collapsed. -/
theorem extract_dedup_exact (d : Document) :
    (extract_food_items_from_response d).Nodup
    ∧ ∀ s ∈ extract_food_items_from_response d,
        (extract_food_items_from_response d).count s = 1 := by
  have hn : (extract_food_items_from_response d).Nodup :=
    List.Nodup.filter _ (pyDedupAux_nodup [] _)
  exact ⟨hn, fun s hs => List.count_eq_one_of_mem hn hs⟩

/-- Witness for `extract_dedup_exact`: the same text in two table cells
yields one item, counted once. -/
theorem extract_dedup_exact_witness :
    ("Baked Ziti" ∈ extract_food_items_from_response ⟨[], ["Baked Ziti", "Baked Ziti"], [], []⟩)
    ∧ (extract_food_items_from_response ⟨[], ["Baked Ziti", "Baked Ziti"], [], []⟩).count
        "Baked Ziti" = 1 :=
  ⟨by decide,
   (extract_dedup_exact ⟨[], ["Baked Ziti", "Baked Ziti"], [], []⟩).2 "Baked Ziti" (by decide)⟩
